import Mathlib

/-!
Verification of the music-evolver generative core
(`music_evolver_streamlit_app.py`).

The core is embedded shallowly:

* the 12 supported pitch-class names (`KEYS` in the source, fed to
  `pretty_midi.note_name_to_number`) become the enumeration `Key`, and the
  two modes become `Mode`;
* machine integers of the source are `Int` (Python ints are unbounded, and
  the only modulus in play is the explicit `% 128` of the source);
* time values are `ℚ`.  The driver only ever adds the literals `0.25`,
  `0.2`, `0.9` and `1.0` to a cursor that starts at `0.0`; all of these are
  small dyadic rationals on which IEEE-754 double arithmetic is exact, so
  rational arithmetic is an exact model of the float arithmetic performed;
* the process-wide pseudo-random state (`np.random`) is made explicit as a
  stream of natural-number draws (`List Nat`), threaded through the
  computation.  `np.random.choice(xs)` picks `xs[r % len(xs)]` for the next
  draw `r`, which ranges over every index numpy could pick; theorems
  quantify over arbitrary streams.
-/

namespace MusicEvolver

/-- The 12 supported pitch-class names, in the order of the source's
`KEYS = ["C","C#","D","D#","E","F","F#","G","G#","A","A#","B"]`. -/
inductive Key
  | C | Cs | D | Ds | E | F | Fs | G | Gs | A | As | B
deriving DecidableEq, Repr

/-- The two modes offered by the UI (`MODES = ["Major", "Minor"]`).  The
source compares the mode string against `"Major"` and treats everything
else as minor, and the UI only ever supplies these two strings. -/
inductive Mode
  | Major | Minor
deriving DecidableEq, Repr

/-- Models `pretty_midi.note_name_to_number(key + "4")` on the 12 supported
names: octave 4 is anchored at MIDI 60 (C4), ascending chromatically. -/
def noteNameToNumber : Key → Int
  | .C => 60
  | .Cs => 61
  | .D => 62
  | .Ds => 63
  | .E => 64
  | .F => 65
  | .Fs => 66
  | .G => 67
  | .Gs => 68
  | .A => 69
  | .As => 70
  | .B => 71

/-- The genre-to-progressions table of the source (`GENRE_PROGRESSIONS`),
as an association list in the source's insertion order. -/
def GENRE_PROGRESSIONS : List (String × List (List String)) :=
  [ ("Pop", [["I", "V", "vi", "IV"], ["I", "vi", "IV", "V"]]),
    ("Jazz", [["ii", "V", "I", "vi"]]),
    ("Rock", [["I", "IV", "V", "I"], ["I", "bVII", "IV", "I"]]),
    ("Classical", [["I", "IV", "V", "I"], ["I", "V", "vi", "iii", "IV", "I"]]) ]

/-- The progression the driver uses for a genre: source line
`chord_prog = GENRE_PROGRESSIONS.get(genre, [["I","IV","V","I"]])[0]`. -/
def chordProgFor (genre : String) : List String :=
  ((GENRE_PROGRESSIONS.lookup genre).getD [["I", "IV", "V", "I"]]).headD []

/-- `scale_degrees_major` of `chord_to_notes`. -/
def scale_degrees_major : List (String × Int) :=
  [("I", 0), ("ii", 2), ("iii", 4), ("IV", 5), ("V", 7), ("vi", 9), ("bVII", 10)]

/-- `scale_degrees_minor` of `chord_to_notes`. -/
def scale_degrees_minor : List (String × Int) :=
  [("i", 0), ("ii", 2), ("III", 3), ("iv", 5), ("v", 7), ("VI", 8), ("bVII", 10)]

/-- `chord_to_notes(chord, key, mode)`: pick the mode's degree table and
triad intervals, fall back to symbol `"I"` when the chord is not a key of
the table (`deg = chord if chord in scale else 'I'`), then
`root = (root_pitch + scale.get(deg, 0)) % 128` and
`notes = [root + interval for interval in intervals]`. -/
def chord_to_notes (chord : String) (key : Key) (mode : Mode) : List Int :=
  let tbl := match mode with
    | .Major => scale_degrees_major
    | .Minor => scale_degrees_minor
  let intervals : List Int := match mode with
    | .Major => [0, 4, 7]
    | .Minor => [0, 3, 7]
  let root_pitch := noteNameToNumber key
  let deg := if (tbl.lookup chord).isSome then chord else "I"
  let root := (root_pitch + (tbl.lookup deg).getD 0) % 128
  intervals.map (fun i => root + i)

/-- `emotion_tempo(emotion)`: dictionary lookup with default 100. -/
def emotion_tempo (emotion : String) : Int :=
  (([("Happy", 120), ("Sad", 70), ("Mysterious", 90), ("Excited", 140)]
      : List (String × Int)).lookup emotion).getD 100

/-- The candidate steps `[-2, -1, 0, 1, 2]` of the melody walk. -/
def stepChoices : List Int := [-2, -1, 0, 1, 2]

/-- One draw of `np.random.choice([-2,-1,0,1,2])`, given the raw draw `r`. -/
def npStep (r : Nat) : Int := stepChoices.getD (r % 5) 0

/-- One draw of `np.random.choice(xs)`, given the raw draw `r`. -/
def npChoice (xs : List Int) (r : Nat) : Int := xs.getD (r % xs.length) 0

/-- The loop body of `evolve_melody`, iterated `n` times: draw a step,
locate the cursor pitch's index (`scale_notes.index(prev_note)` when
present, else 0), clamp `idx + step` into `[0, len(scale_notes)-1]`
(`next_idx = min(max(idx + step, 0), len(scale_notes)-1)`), emit
`scale_notes[next_idx]` and continue from it.  Returns the emitted notes
and the unconsumed tail of the random stream. -/
def evolveLoop (scale_notes : List Int) : Int → Nat → List Nat → List Int × List Nat
  | _, 0, rs => ([], rs)
  | prev_note, n + 1, rs =>
    let step := npStep (rs.headD 0)
    let idx : Int := if scale_notes.contains prev_note
      then (scale_notes.indexOf prev_note : Int) else 0
    let next_idx : Int := min (max (idx + step) 0) ((scale_notes.length : Int) - 1)
    let next_note := scale_notes.getD next_idx.toNat 0
    let rest := evolveLoop scale_notes next_note n rs.tail
    (next_note :: rest.1, rest.2)

/-- `evolve_melody(prev, scale_notes, length)`: the cursor starts at
`prev[-1]` when `prev` is non-empty, otherwise at a random scale pitch
(consuming one draw).  `length` is a Python int; `range(length)` iterates
`max length 0` times, i.e. `length.toNat`. -/
def evolve_melody (prev scale_notes : List Int) (length : Int) (rs : List Nat) :
    List Int × List Nat :=
  if prev.isEmpty then
    evolveLoop scale_notes (npChoice scale_notes (rs.headD 0)) length.toNat rs.tail
  else
    evolveLoop scale_notes (prev.getLastD 0) length.toNat rs

/-- `make_scale(key, mode)`: `[(base + i) % 128 for i in intervals]` with
`base = pretty_midi.note_name_to_number(key + "4")`. -/
def make_scale (key : Key) (mode : Mode) : List Int :=
  let major_intervals : List Int := [0, 2, 4, 5, 7, 9, 11]
  let minor_intervals : List Int := [0, 2, 3, 5, 7, 8, 10]
  let base := noteNameToNumber key
  let intervals := match mode with
    | .Major => major_intervals
    | .Minor => minor_intervals
  intervals.map (fun i => (base + i) % 128)

/-- One `pretty_midi.Note`: velocity, pitch, start time and end time in
seconds (`finish` models the source's `end`). -/
structure TimedNote where
  velocity : Nat
  pitch : Int
  start : ℚ
  finish : ℚ
deriving DecidableEq, Inhabited, Repr

/-- The mutable state of the driver's loop: the time cursor, the current
melody, the accumulated instrument notes, the accumulated plot points, and
the unconsumed random stream. -/
structure GenState where
  time : ℚ
  melody : List Int
  notes : List TimedNote
  plot : List (ℚ × Int)
  rs : List Nat

/-- The values `generate_music` returns to its caller: the instrument's
note list, the melody plot points, and the tempo. -/
structure GenResult where
  notes : List TimedNote
  plot : List (ℚ × Int)
  tempo : Int

/-- The body of the driver's inner loop (`for chord in chord_prog`):
append the triad as three notes (velocity 70, `start=time`,
`end=time+0.9`), evolve the melody with `length=4`, append the four melody
notes (velocity 100, `start=time+idx*0.25`, `end=start+0.2`) and the plot
points, then `time += 1`. -/
def processChord (key : Key) (mode : Mode) (scale_notes : List Int)
    (st : GenState) (chord : String) : GenState :=
  let chord_notes := chord_to_notes chord key mode
  let notesC := st.notes ++
    chord_notes.map (fun n => (⟨70, n, st.time, st.time + 9/10⟩ : TimedNote))
  let er := evolve_melody st.melody scale_notes 4 st.rs
  let melody := er.1
  let notesM := notesC ++ melody.enum.map (fun p =>
    (⟨100, p.2, st.time + (p.1 : ℚ) * (1/4),
      st.time + (p.1 : ℚ) * (1/4) + 1/5⟩ : TimedNote))
  let plotM := st.plot ++ melody.enum.map (fun p =>
    (st.time + (p.1 : ℚ) * (1/4), p.2))
  ⟨st.time + 1, melody, notesM, plotM, er.2⟩

/-- `generate_music(genre, key, mode, emotion, generations)`: look up the
tempo and scale, take the first progression for the genre, seed the melody
with one random scale pitch, then run `generations × progression` chord
steps.  `generations` is a Python int; `range(generations)` iterates
`generations.toNat` times. -/
def generate_music (genre : String) (key : Key) (mode : Mode)
    (emotion : String) (generations : Int) (rs : List Nat) : GenResult :=
  let tempo := emotion_tempo emotion
  let scale_notes := make_scale key mode
  let chord_prog := chordProgFor genre
  let st0 : GenState :=
    ⟨0, [npChoice scale_notes (rs.headD 0)], [], [], rs.tail⟩
  let stF := (List.range generations.toNat).foldl
    (fun st _ => chord_prog.foldl (processChord key mode scale_notes) st) st0
  ⟨stF.notes, stF.plot, tempo⟩

/-! ### Generic lemmas about the melody walk -/

lemma evolveLoop_length (scale : List Int) (pn : Int) (n : Nat) (rs : List Nat) :
    (evolveLoop scale pn n rs).1.length = n := by
  induction n generalizing pn rs with
  | zero => rfl
  | succ n ih => simp [evolveLoop, ih]

lemma getD_mem_of_lt (l : List Int) (i : Nat) (h : i < l.length) : l.getD i 0 ∈ l := by
  rw [List.getD_eq_getElem l 0 h]
  exact List.getElem_mem h

lemma evolveLoop_mem (scale : List Int) (h : scale ≠ []) (n : Nat) :
    ∀ (pn : Int) (rs : List Nat), ∀ p ∈ (evolveLoop scale pn n rs).1, p ∈ scale := by
  induction n with
  | zero => intro pn rs p hp; simp [evolveLoop] at hp
  | succ n ih =>
    intro pn rs p hp
    have hlen : 0 < scale.length := List.length_pos.mpr h
    simp only [evolveLoop, List.mem_cons] at hp
    rcases hp with h1 | h2
    · subst h1
      apply getD_mem_of_lt
      have h0 : (0 : Int) ≤ min (max ((if scale.contains pn
          then (scale.indexOf pn : Int) else 0) + npStep (rs.headD 0)) 0)
          ((scale.length : Int) - 1) := by
        apply le_min (le_max_right _ _)
        omega
      have h1b : min (max ((if scale.contains pn
          then (scale.indexOf pn : Int) else 0) + npStep (rs.headD 0)) 0)
          ((scale.length : Int) - 1) ≤ (scale.length : Int) - 1 := min_le_right _ _
      omega
    · exact ih _ _ p h2

lemma getD_zero_eq_headD (l : List Int) : l.getD 0 0 = l.headD 0 := by
  cases l <;> rfl

lemma getD_pred_eq_getLastD (l : List Int) (h : l ≠ []) :
    l.getD (l.length - 1) 0 = l.getLastD 0 := by
  induction l with
  | nil => simp at h
  | cons a t ih =>
    cases t with
    | nil => rfl
    | cons b t2 =>
      have h2 : (b :: t2) ≠ ([] : List Int) := by simp
      have h3 := ih h2
      rw [List.getLastD_cons, List.getLastD_cons]
      rw [List.getLastD_cons] at h3
      simp only [List.length_cons, Nat.add_sub_cancel] at h3 ⊢
      rw [List.getD_cons_succ]
      exact h3

/-! ### C1 -/

/-- C1: for every non-empty scale and every length `L`, `evolve_melody`
returns exactly `L` pitches, each an element of the supplied scale (every
output pitch is selected by indexing into the scale). -/
theorem evolve_melody_scale_constrained (prev scale_notes : List Int) (L : Nat)
    (rs : List Nat) (h : scale_notes ≠ []) :
    (evolve_melody prev scale_notes (L : Int) rs).1.length = L ∧
    ∀ p ∈ (evolve_melody prev scale_notes (L : Int) rs).1, p ∈ scale_notes := by
  unfold evolve_melody
  have ht : ((L : Int)).toNat = L := Int.toNat_natCast L
  split
  · rw [ht]
    exact ⟨evolveLoop_length _ _ _ _, evolveLoop_mem _ h _ _ _⟩
  · rw [ht]
    exact ⟨evolveLoop_length _ _ _ _, evolveLoop_mem _ h _ _ _⟩

theorem evolve_melody_scale_constrained_witness :
    (([60, 62, 64] : List Int) ≠ []) ∧
    ((evolve_melody [60] [60, 62, 64] ((3 : Nat) : Int) []).1.length = 3 ∧
      ∀ p ∈ (evolve_melody [60] [60, 62, 64] ((3 : Nat) : Int) []).1,
        p ∈ ([60, 62, 64] : List Int)) :=
  ⟨by decide, evolve_melody_scale_constrained [60] [60, 62, 64] 3 [] (by decide)⟩

/-! ### C2 -/

/-- C2: in the melody walk, when the cursor pitch sits at the scale's last
index and a positive step is drawn, the next emitted pitch is the last
scale pitch (clamped, no wraparound to index 0); symmetrically, at index 0
a negative step yields the first scale pitch. -/
theorem evolve_melody_clamps_at_boundaries (prev scale_notes : List Int) (r : Nat)
    (rs : List Nat) (L : Nat) (h : scale_notes ≠ []) (hp : prev ≠ [])
    (hmem : prev.getLastD 0 ∈ scale_notes) :
    (scale_notes.indexOf (prev.getLastD 0) = scale_notes.length - 1 → 0 < npStep r →
      (evolve_melody prev scale_notes ((L + 1 : Nat) : Int) (r :: rs)).1.headD 0 =
        scale_notes.getLastD 0) ∧
    (scale_notes.indexOf (prev.getLastD 0) = 0 → npStep r < 0 →
      (evolve_melody prev scale_notes ((L + 1 : Nat) : Int) (r :: rs)).1.headD 0 =
        scale_notes.headD 0) := by
  have hlen : 0 < scale_notes.length := List.length_pos.mpr h
  have hpe : prev.isEmpty = false := by
    cases prev
    · simp at hp
    · rfl
  have ht : (((L + 1 : Nat) : Int)).toNat = L + 1 := Int.toNat_natCast _
  have hcont : scale_notes.contains (prev.getLastD 0) = true := by
    exact List.elem_eq_true_of_mem hmem
  constructor
  · intro hidx hstep
    unfold evolve_melody
    rw [hpe]
    simp only [Bool.false_eq_true, if_false, ht]
    simp only [evolveLoop, hcont, if_true, List.headD_cons]
    have hidx2 : ((scale_notes.indexOf (prev.getLastD 0) : Nat) : Int) =
        (scale_notes.length : Int) - 1 := by
      rw [hidx]; omega
    rw [hidx2]
    have hmin : min (max ((scale_notes.length : Int) - 1 + npStep r) 0)
        ((scale_notes.length : Int) - 1) = (scale_notes.length : Int) - 1 := by omega
    rw [hmin]
    have htn : ((scale_notes.length : Int) - 1).toNat = scale_notes.length - 1 := by omega
    rw [htn]
    exact getD_pred_eq_getLastD scale_notes h
  · intro hidx hstep
    unfold evolve_melody
    rw [hpe]
    simp only [Bool.false_eq_true, if_false, ht]
    simp only [evolveLoop, hcont, if_true, List.headD_cons]
    have hidx2 : ((scale_notes.indexOf (prev.getLastD 0) : Nat) : Int) = 0 := by
      rw [hidx]; rfl
    rw [hidx2]
    have hmin : min (max ((0 : Int) + npStep r) 0) ((scale_notes.length : Int) - 1)
        = 0 := by omega
    rw [hmin]
    exact getD_zero_eq_headD scale_notes

theorem evolve_melody_clamps_at_boundaries_witness :
    (([60, 62] : List Int) ≠ []) ∧ ([62] ≠ ([] : List Int)) ∧
    (([62] : List Int).getLastD 0 ∈ ([60, 62] : List Int)) ∧
    ((([60, 62] : List Int).indexOf (([62] : List Int).getLastD 0) =
        ([60, 62] : List Int).length - 1 → 0 < npStep 3 →
      (evolve_melody [62] [60, 62] ((0 + 1 : Nat) : Int) (3 :: [])).1.headD 0 =
        ([60, 62] : List Int).getLastD 0) ∧
    (([60, 62] : List Int).indexOf (([62] : List Int).getLastD 0) = 0 → npStep 3 < 0 →
      (evolve_melody [62] [60, 62] ((0 + 1 : Nat) : Int) (3 :: [])).1.headD 0 =
        ([60, 62] : List Int).headD 0)) :=
  ⟨by decide, by decide, by decide,
    evolve_melody_clamps_at_boundaries [62] [60, 62] 3 [] 0 (by decide) (by decide) (by decide)⟩

/-! ### C3 -/

/-- C3: for every (key, mode) pair, `make_scale` returns exactly 7 pitches,
each in `[0,127]`, computed as the octave-4 tonic plus the mode's interval
pattern in degree order; purity (identical inputs give identical output)
holds definitionally for the embedded function. -/
theorem make_scale_seven_pitches_in_range : ∀ (k : Key) (m : Mode),
    (make_scale k m).length = 7 ∧
    (∀ p ∈ make_scale k m, 0 ≤ p ∧ p ≤ 127) ∧
    make_scale k m =
      (match m with
        | .Major => ([0, 2, 4, 5, 7, 9, 11] : List Int)
        | .Minor => [0, 2, 3, 5, 7, 8, 10]).map
        (fun i => (noteNameToNumber k + i) % 128) := by
  intro k m
  cases k <;> cases m <;> decide

/-! ### C10 -/

/-- C10: for every supported key and either mode, `make_scale` is strictly
increasing; the octave-4 anchor keeps `base + interval` below 128, so the
modulo-128 wrap never alters a value (the unwrapped map gives the same
list) and index order coincides with ascending pitch order. -/
theorem make_scale_strictly_increasing : ∀ (k : Key) (m : Mode),
    (make_scale k m).Pairwise (fun a b => a < b) ∧
    make_scale k m =
      (match m with
        | .Major => ([0, 2, 4, 5, 7, 9, 11] : List Int)
        | .Minor => [0, 2, 3, 5, 7, 8, 10]).map
        (fun i => noteNameToNumber k + i) := by
  intro k m
  cases k <;> cases m <;> decide

/-! ### C4 -/

/-- C4: for every key and every chord symbol absent from the active mode's
degree table, `chord_to_notes` returns the same triad as symbol `I` in
Major mode and the same triad as symbol `i` in Minor mode (the lookup falls
back to the tonic offset 0 and never fails). -/
theorem chord_to_notes_unknown_symbol_fallback (chord : String) (k : Key) :
    (scale_degrees_major.lookup chord = none →
      chord_to_notes chord k Mode.Major = chord_to_notes "I" k Mode.Major) ∧
    (scale_degrees_minor.lookup chord = none →
      chord_to_notes chord k Mode.Minor = chord_to_notes "i" k Mode.Minor) := by
  constructor
  · intro h
    have hs : (scale_degrees_major.lookup chord).isSome = false := by rw [h]; rfl
    simp only [chord_to_notes, hs]
    rfl
  · intro h
    have hs : (scale_degrees_minor.lookup chord).isSome = false := by rw [h]; rfl
    simp only [chord_to_notes, hs]
    rfl

theorem chord_to_notes_unknown_symbol_fallback_witness :
    (scale_degrees_major.lookup "VII" = none ∧
      chord_to_notes "VII" Key.D Mode.Major = chord_to_notes "I" Key.D Mode.Major) ∧
    (scale_degrees_minor.lookup "VII" = none ∧
      chord_to_notes "VII" Key.D Mode.Minor = chord_to_notes "i" Key.D Mode.Minor) :=
  ⟨⟨by decide, (chord_to_notes_unknown_symbol_fallback "VII" Key.D).1 (by decide)⟩,
    ⟨by decide, (chord_to_notes_unknown_symbol_fallback "VII" Key.D).2 (by decide)⟩⟩

/-! ### C5 -/

/-- C5 (code behaviour at the failing input): with a non-positive
`generations` the driver silently returns an empty note sequence, and with
a non-positive `length` the evolver silently returns an empty melody; no
validation error is raised anywhere, contrary to the fail-fast requirement
of the specification. -/
theorem nonpositive_iteration_counts_are_silent :
    (generate_music "Pop" Key.C Mode.Major "Happy" 0 []).notes = [] ∧
    (generate_music "Pop" Key.C Mode.Major "Happy" (-1) []).notes = [] ∧
    (evolve_melody [60] (make_scale Key.C Mode.Major) 0 []).1 = [] ∧
    (evolve_melody [60] (make_scale Key.C Mode.Major) (-3) []).1 = [] := by
  refine ⟨rfl, rfl, rfl, rfl⟩

/-! ### C9 -/

/-- C9 (code behaviour): `generate_music` takes no seed or random-source
parameter; its output is a function of the ambient process-wide random
stream, and two runs with identical inputs but different ambient streams
produce different note sequences. -/
theorem generate_music_reads_ambient_random_state :
    (generate_music "Pop" Key.C Mode.Major "Happy" 1 []).notes.map TimedNote.pitch ≠
    (generate_music "Pop" Key.C Mode.Major "Happy" 1 [0, 4]).notes.map TimedNote.pitch := by
  decide

/-! ### C8 -/

/-- C8: for every genre name absent from the progression table the driver
falls back to the fixed progression `I IV V I` without error, and for every
known genre with multiple variants it uses exactly the first listed
sequence; an unknown-genre run completes normally (28 notes for one
generation of the 4-chord fallback). -/
theorem chord_progression_selection :
    (∀ g : String, GENRE_PROGRESSIONS.lookup g = none →
      chordProgFor g = ["I", "IV", "V", "I"]) ∧
    chordProgFor "Pop" = ["I", "V", "vi", "IV"] ∧
    chordProgFor "Rock" = ["I", "IV", "V", "I"] ∧
    chordProgFor "Classical" = ["I", "IV", "V", "I"] ∧
    chordProgFor "Jazz" = ["ii", "V", "I", "vi"] ∧
    chordProgFor "Blues" = ["I", "IV", "V", "I"] ∧
    (generate_music "Blues" Key.C Mode.Major "Happy" 1 []).notes.length = 28 := by
  refine ⟨?_, by decide, by decide, by decide, by decide, by decide, by decide⟩
  intro g hg
  simp [chordProgFor, hg]

theorem chord_progression_selection_witness :
    GENRE_PROGRESSIONS.lookup "Blues" = none ∧
    chordProgFor "Blues" = ["I", "IV", "V", "I"] :=
  ⟨by decide, chord_progression_selection.1 "Blues" (by decide)⟩

/-! ### Driver lemmas -/

lemma evolve_melody_length (prev scale : List Int) (L : Int) (rs : List Nat) :
    (evolve_melody prev scale L rs).1.length = L.toNat := by
  unfold evolve_melody
  split
  · exact evolveLoop_length _ _ _ _
  · exact evolveLoop_length _ _ _ _

lemma chord_to_notes_length (c : String) (k : Key) (m : Mode) :
    (chord_to_notes c k m).length = 3 := by
  cases m <;> simp [chord_to_notes]

lemma processChord_notes_eq (k : Key) (m : Mode) (sc : List Int) (st : GenState)
    (c : String) :
    (processChord k m sc st c).notes =
      st.notes ++
        ((chord_to_notes c k m).map
            (fun n => (⟨70, n, st.time, st.time + 9/10⟩ : TimedNote)) ++
          (evolve_melody st.melody sc 4 st.rs).1.enum.map (fun p =>
            (⟨100, p.2, st.time + (p.1 : ℚ) * (1/4),
              st.time + (p.1 : ℚ) * (1/4) + 1/5⟩ : TimedNote))) := by
  simp [processChord, List.append_assoc]

lemma processChord_notes_length (k : Key) (m : Mode) (sc : List Int) (st : GenState)
    (c : String) :
    (processChord k m sc st c).notes.length = st.notes.length + 7 := by
  rw [processChord_notes_eq]
  simp [chord_to_notes_length, evolve_melody_length]

lemma foldl_processChord_notes_extends (k : Key) (m : Mode) (sc : List Int)
    (cs : List String) : ∀ st : GenState,
    ∃ t, (cs.foldl (processChord k m sc) st).notes = st.notes ++ t := by
  induction cs with
  | nil => intro st; exact ⟨[], by simp⟩
  | cons c cs ih =>
    intro st
    obtain ⟨t2, ht2⟩ := ih (processChord k m sc st c)
    refine ⟨((chord_to_notes c k m).map
        (fun n => (⟨70, n, st.time, st.time + 9/10⟩ : TimedNote)) ++
      (evolve_melody st.melody sc 4 st.rs).1.enum.map (fun p =>
        (⟨100, p.2, st.time + (p.1 : ℚ) * (1/4),
          st.time + (p.1 : ℚ) * (1/4) + 1/5⟩ : TimedNote))) ++ t2, ?_⟩
    rw [List.foldl_cons, ht2, processChord_notes_eq, List.append_assoc]

/-! ### C7 -/

/-- C7: the scenario genre Pop, key C, mode Major, emotion Happy, one
generation yields tempo 120 and exactly 28 notes (4 chords of 3 chord notes
and 4 melody notes each), whatever the random draws; the first chord's
triad pitches are those of `chord_to_notes` at symbol `I`, key C, Major. -/
theorem generate_music_pop_scenario (rs : List Nat) :
    (generate_music "Pop" Key.C Mode.Major "Happy" 1 rs).tempo = 120 ∧
    (generate_music "Pop" Key.C Mode.Major "Happy" 1 rs).notes.length = 28 ∧
    ((generate_music "Pop" Key.C Mode.Major "Happy" 1 rs).notes.take 3).map
        TimedNote.pitch = chord_to_notes "I" Key.C Mode.Major := by
  have e : (generate_music "Pop" Key.C Mode.Major "Happy" 1 rs).notes =
      (["I", "V", "vi", "IV"].foldl
        (processChord Key.C Mode.Major (make_scale Key.C Mode.Major))
        (⟨0, [npChoice (make_scale Key.C Mode.Major) (rs.headD 0)], [], [],
          rs.tail⟩ : GenState)).notes := rfl
  refine ⟨rfl, ?_, ?_⟩
  · rw [e]
    simp only [List.foldl_cons, List.foldl_nil, processChord_notes_length]
    rfl
  · rw [e, List.foldl_cons]
    obtain ⟨t, ht⟩ := foldl_processChord_notes_extends Key.C Mode.Major
      (make_scale Key.C Mode.Major) ["V", "vi", "IV"]
      (processChord Key.C Mode.Major (make_scale Key.C Mode.Major)
        (⟨0, [npChoice (make_scale Key.C Mode.Major) (rs.headD 0)], [], [],
          rs.tail⟩ : GenState) "I")
    rw [ht, processChord_notes_eq]
    simp only [List.nil_append, List.append_assoc]
    rw [List.take_append_of_le_length (by simp [chord_to_notes_length])]
    rw [List.take_of_length_le (by simp [chord_to_notes_length])]
    simp only [List.map_map]
    exact List.map_id _

lemma exists_len3 (l : List Int) (h : l.length = 3) : ∃ x y z, l = [x, y, z] := by
  rcases l with _ | ⟨x, _ | ⟨y, _ | ⟨z, _ | ⟨w, t⟩⟩⟩⟩ <;> simp_all

lemma exists_len4 (l : List Int) (h : l.length = 4) : ∃ a b c d, l = [a, b, c, d] := by
  rcases l with _ | ⟨a, _ | ⟨b, _ | ⟨c, _ | ⟨d, _ | ⟨w, t⟩⟩⟩⟩⟩ <;> simp_all

/-! ### C6 -/

/-- C6: for every chord processed by the driver, the step appends exactly 3
chord notes (velocity 70, duration 0.9 s, all at the time cursor) followed
by exactly 4 melody notes obtained from the evolver with length 4
(velocity 100, duration 0.2 s, spaced 0.25 s apart from the cursor), the
time cursor advances by exactly 1 second, and the appended segment is in
chronological emission order (chord notes before the melody, melody in
ascending offset order). -/
theorem driver_chord_step_emission (key : Key) (mode : Mode) (st : GenState)
    (chord : String) :
    ∃ ns : List TimedNote,
      (processChord key mode (make_scale key mode) st chord).notes =
        st.notes ++ ns ∧
      ns.length = 7 ∧
      (∀ i : Fin 3, (ns.getD i.val default).velocity = 70 ∧
        (ns.getD i.val default).start = st.time ∧
        (ns.getD i.val default).finish = st.time + 9/10) ∧
      (ns.take 3).map TimedNote.pitch = chord_to_notes chord key mode ∧
      (ns.drop 3).map TimedNote.pitch =
        (evolve_melody st.melody (make_scale key mode) 4 st.rs).1 ∧
      (evolve_melody st.melody (make_scale key mode) 4 st.rs).1.length = 4 ∧
      (∀ i : Fin 4, (ns.getD (3 + i.val) default).velocity = 100 ∧
        (ns.getD (3 + i.val) default).start = st.time + (i.val : ℚ) * (1/4) ∧
        (ns.getD (3 + i.val) default).finish =
          st.time + (i.val : ℚ) * (1/4) + 1/5) ∧
      ns.Chain' (fun a b => a.start ≤ b.start) ∧
      (processChord key mode (make_scale key mode) st chord).time = st.time + 1 := by
  have hmlen : (evolve_melody st.melody (make_scale key mode) 4 st.rs).1.length = 4 := by
    rw [evolve_melody_length]; rfl
  obtain ⟨a, b, c, d, hm⟩ := exists_len4 _ hmlen
  obtain ⟨x, y, z, hc⟩ := exists_len3 (chord_to_notes chord key mode)
    (chord_to_notes_length chord key mode)
  refine ⟨[⟨70, x, st.time, st.time + 9/10⟩, ⟨70, y, st.time, st.time + 9/10⟩,
    ⟨70, z, st.time, st.time + 9/10⟩,
    ⟨100, a, st.time + ((0 : Nat) : ℚ) * (1/4), st.time + ((0 : Nat) : ℚ) * (1/4) + 1/5⟩,
    ⟨100, b, st.time + ((1 : Nat) : ℚ) * (1/4), st.time + ((1 : Nat) : ℚ) * (1/4) + 1/5⟩,
    ⟨100, c, st.time + ((2 : Nat) : ℚ) * (1/4), st.time + ((2 : Nat) : ℚ) * (1/4) + 1/5⟩,
    ⟨100, d, st.time + ((3 : Nat) : ℚ) * (1/4), st.time + ((3 : Nat) : ℚ) * (1/4) + 1/5⟩],
    ?_, by simp, ?_, ?_, ?_, hmlen, ?_, ?_, ?_⟩
  · rw [processChord_notes_eq, hm, hc]
    simp [List.enum, List.enumFrom]
  · intro i
    fin_cases i <;> simp
  · rw [hc]
    simp
  · rw [hm]
    simp
  · intro i
    fin_cases i <;> simp
  · simp only [List.chain'_cons, List.chain'_singleton]
    push_cast
    refine ⟨le_refl _, le_refl _, by linarith, by linarith, by linarith, by linarith, trivial⟩
  · simp [processChord]

end MusicEvolver
